import Mathlib

/-!
Verification development for the NSP Agent portal: a shallow embedding of the
upload/submit/poll/extract/cache pipeline of `app.py` and
`simple_sow_service.py`, together with theorems about the behaviour of the
embedded functions.

Modelling conventions:
* Machine strings are Lean `String`s; Python character slicing `s[:n]` is
  `String.mk (s.data.take n)`.
* An uploaded file is its filename, its raw byte length (`len(file_content)`)
  and its decoded text (`file_content.decode("utf-8", errors="ignore")`); the
  UTF-8 decoder itself is an external library routine and is not re-modelled,
  so the decoded text is carried as a field.
* The Remote Agent Runtime (Azure AI Foundry) is an external collaborator; one
  request's interaction with it is a `Runtime` value: the outcome of thread
  creation, the run status observed at each elapsed time, the run's
  `last_error` field, and the thread's message log.  Per the spec's data model
  the log is the ordered message log of the unit of work, listed here in
  chronological order (oldest first); each message carries its `role` and its
  `content[0].text.value`.
* Wall-clock sleeping is not modelled; elapsed time is the `wait_time` counter
  of the source's poll loop.
* `remoteCalls` counts the remote-runtime operations attempted by a request
  (thread create, message create, run create, each run get, message list), so
  that "no call to the Remote Agent Runtime" is expressible.
-/

namespace NSPAgent

/-- One message of a thread's log: its `role` and its `content[0].text.value`
(messages are carried with their first text content item, which is the only
part the source reads). -/
structure Message where
  role : String
  text : String
deriving DecidableEq

/-- One uploaded file as seen by the Flask handler: `filename`, the byte
length of `file.read()`, and the text that `decode("utf-8", errors="ignore")`
yields for those bytes. -/
structure UploadedFile where
  filename : String
  byteLen : Nat
  text : String
deriving DecidableEq

/-- The Remote Agent Runtime's behaviour towards a single request:
`create` is the outcome of `threads.create` (`.error e` models a raised
exception with message `e`, `.ok id` the created thread's id);
`statusAt w` is the run status returned by `runs.get` at elapsed time `w`;
`initialStatus` is the status on the run object returned by `runs.create`;
`lastErrorAt w` is the run's `last_error` at elapsed time `w` (`none` models
a falsy/absent value); `messages` is the thread's message log in
chronological order (oldest first). -/
structure Runtime where
  create : Except String String
  initialStatus : String
  statusAt : Nat → String
  lastErrorAt : Nat → Option String
  messages : List Message

/-- The JSON dictionary a service call produces (`simple_sow_service.py`):
only the keys the source ever writes are carried; a key that a given return
site does not write is `none`.  The clock-derived `timestamp` and the constant
`agent_used` / `model_used` metadata strings are omitted. -/
structure SvcResult where
  status : String
  proposal? : Option String := none
  threadId? : Option String := none
  processingTime? : Option Nat := none
  error? : Option String := none
  debugMessages? : Option (List String) := none
  documentLength? : Option Nat := none
  runStatus? : Option String := none
  filename? : Option String := none
deriving DecidableEq

/-- One entry of `proposals_storage`: the cached proposal text and the
originating filename (the stored `timestamp` is clock-derived and omitted). -/
structure CacheEntry where
  proposal : String
  filename : String
deriving DecidableEq

/-- The `proposals_storage` dict, as an insertion-ordered association list
with unique keys (Python `dict` semantics). -/
abbrev Storage := List (String × CacheEntry)

/-- Python `d[k] = v`: overwrite in place when the key exists, append
otherwise. -/
def storagePut (s : Storage) (k : String) (v : CacheEntry) : Storage :=
  if s.any (fun kv => kv.1 == k) then
    s.map (fun kv => if kv.1 == k then (k, v) else kv)
  else s ++ [(k, v)]

/-- Python `d[k]` guarded by `k in d`: the entry stored under `k`. -/
def storageGet (s : Storage) (k : String) : Option CacheEntry :=
  (s.find? (fun kv => kv.1 == k)).map Prod.snd

/-- Last index of `c` in `l`, or `-1` when absent (Python `str.rfind`). -/
def rfindChar (l : List Char) (c : Char) : Int :=
  match l.reverse.findIdx? (· == c) with
  | none => -1
  | some j => (l.length : Int) - 1 - (j : Int)

/-- The extension part of `os.path.splitext` (posixpath): the suffix from the
last dot, provided that dot lies after the last separator and some character
between the separator and the dot is not itself a dot (a leading-dot name such
as `.txt` has no extension). -/
def splitextExt (p : String) : String :=
  let l := p.data
  let sepIndex := rfindChar l '/'
  let dotIndex := rfindChar l '.'
  if sepIndex < dotIndex then
    let mid := (l.take dotIndex.toNat).drop (sepIndex + 1).toNat
    if mid.any (fun c => c != '.') then String.mk (l.drop dotIndex.toNat) else ""
  else ""

/-- Python `str.lower()`, character by character (`Char.toLower` models it on
the ASCII range; the extensions and filenames compared here are ASCII). -/
def pyLower (s : String) : String := String.mk (s.data.map Char.toLower)

/-- Python `str.endswith(t)`: the characters of `t` are a suffix of the
characters of `s`. -/
def pyEndsWith (s t : String) : Bool := t.data.isSuffixOf s.data

/-- Characters kept verbatim by `re.sub(r"[^\x20-\x7E\n\r\t]", " ", ·)`. -/
def isWordKeepChar (c : Char) : Bool :=
  (0x20 ≤ c.toNat && c.toNat ≤ 0x7E) || c == '\n' || c == '\r' || c == '\t'

/-- The substitution `re.sub(r"[^\x20-\x7E\n\r\t]", " ", text)`. -/
def subNonPrintable (l : List Char) : List Char :=
  l.map (fun c => if isWordKeepChar c then c else ' ')

/-- Whitespace relevant after `subNonPrintable`: every remaining character is
in `0x20`–`0x7E` or is one of `\n` `\r` `\t`, so Python's `\s` and `strip()`
coincide with this predicate on such text. -/
def isPySpace (c : Char) : Bool :=
  c == ' ' || c == '\t' || c == '\n' || c == '\r'

/-- The substitution `re.sub(r"\s+", " ", ·)`: each maximal whitespace run
becomes a single space. -/
def collapseWs : List Char → List Char
  | [] => []
  | [c] => if isPySpace c then [' '] else [c]
  | c :: d :: rest =>
    if isPySpace c then
      if isPySpace d then collapseWs (d :: rest)
      else ' ' :: collapseWs (d :: rest)
    else c :: collapseWs (d :: rest)

/-- Python `str.strip()` on the post-substitution alphabet. -/
def pyStrip (l : List Char) : List Char :=
  ((l.dropWhile isPySpace).reverse.dropWhile isPySpace).reverse

/-- The `.doc`/`.docx` cleanup of `_extract_text_content`: map bytes outside
the printable range to spaces, collapse whitespace runs, strip the ends. -/
def wordCleanup (text : String) : String :=
  String.mk (pyStrip (collapseWs (subNonPrintable text.data)))

/-- Embedding of `SOWProposalService._extract_text_content` (the happy path;
`decode(..., errors="ignore")` and `re.sub` never raise, so the source's
`except` fallback is unreachable).  `.txt` files return the decoded text
immediately; other files pass through the Word-artifact cleanup when named
`.doc`/`.docx` and are then sliced to the first 10000 characters. -/
def extractTextContent (text : String) (filename : String) : String :=
  if pyEndsWith (pyLower filename) ".txt" then
    text
  else
    let textContent :=
      if pyEndsWith (pyLower filename) ".doc" || pyEndsWith (pyLower filename) ".docx" then
        wordCleanup text
      else text
    String.mk (textContent.data.take 10000)

/-- The non-terminal run statuses of the source's poll guard:
`run.status in ["queued", "in_progress", "requires_action"]`. -/
def nonTerminalStatus (s : String) : Bool :=
  ["queued", "in_progress", "requires_action"].contains s

/-- The source's `max_wait_time = 300  # 5 minutes`. -/
def maxWaitTime : Nat := 300

/-- The source's poll interval: `await asyncio.sleep(10)` and
`wait_time += 10`. -/
def pollInterval : Nat := 10

/-- The poll loop body, with explicit fuel: each iteration sleeps one
interval, advances `wait_time` by `pollInterval` and re-reads the run.  Since
`wait_time` starts at `0`, grows by `pollInterval` per iteration and the guard
requires `wait_time < maxWaitTime`, the loop runs at most
`maxWaitTime / pollInterval` times, so that fuel makes the recursion
structural without changing the computed result (`pollAux_fuel_irrelevant`
below checks that the fuel never cuts the loop short). -/
def pollAux (rt : Runtime) : String → Nat → Nat → String × Nat
  | status, waitTime, 0 => (status, waitTime)
  | status, waitTime, fuel + 1 =>
    if nonTerminalStatus status = true ∧ waitTime < maxWaitTime then
      pollAux rt (rt.statusAt (waitTime + pollInterval)) (waitTime + pollInterval) fuel
    else (status, waitTime)

/-- The source's poll loop, started from the status on the freshly created run
and `wait_time = 0`: the final run status and the final `wait_time`. -/
def pollLoop (rt : Runtime) (status : String) : String × Nat :=
  pollAux rt status 0 (maxWaitTime / pollInterval)

/-- The `debug_messages` diagnostic list:
`f"{msg.role}: {msg.content[0].text.value[:100]}..."` for each message of the
log, in log order. -/
def debugPreview (msgs : List Message) : List String :=
  msgs.map (fun m => m.role ++ ": " ++ String.mk (m.text.data.take 100) ++ "...")

/-- The source's selection of the proposal message: iterate
`reversed(list(messages))` and stop at the first message whose role is
`"assistant"`. -/
def findProposalMessage (msgs : List Message) : Option Message :=
  msgs.reverse.find? (fun m => m.role == "assistant")

/-- The instruction message `analysis_message` built by
`_process_with_orchestrator` around the extracted document text.  It is sent
to the external runtime via `messages.create` and does not influence any
locally observable value of the embedding. -/
def analysisMessage (filename documentText : String) : String :=
  "
I need you to analyze this SOW document and generate a comprehensive Azure upselling proposal.

DOCUMENT: " ++ filename ++ "
EXTRACTED CONTENT:
" ++ documentText ++ "

Please execute the complete workflow:

1. **Document Analysis**: Extract and structure key information:
   - Project objectives and business requirements
   - Current technology stack and infrastructure
   - Timeline, budget, and resource constraints
   - Technical specifications and performance requirements
   - Integration needs and compliance requirements

2. **Azure Opportunity Identification**: Identify specific Azure services that match the requirements:
   - Azure App Service for web applications
   - Azure SQL Database/Cosmos DB for data storage
   - Azure AI services for document processing/ML needs
   - Azure DevOps for CI/CD and project management
   - Azure Security Center for compliance and security
   - Azure Monitor for observability
   - Consider cost optimization opportunities

3. **Business Case Development**: 
   - Calculate potential cost savings vs current state
   - ROI projections with realistic timelines
   - Competitive advantages of Azure ecosystem
   - Risk mitigation through Azure's enterprise features

4. **Executive Proposal**: Generate a comprehensive proposal with:

   📋 **EXECUTIVE SUMMARY**
   - 2-3 key business impacts and financial benefits
   - Top 3 Azure service recommendations
   - Overall ROI and cost savings projection

   🎯 **AZURE SERVICE RECOMMENDATIONS**
   - Specific Azure services with business justification
   - Technical implementation approach
   - Cost analysis (monthly/annual estimates)
   - Implementation timeline for each service

   📊 **FINANCIAL ANALYSIS**
   - Current state costs vs Azure costs
   - Monthly and annual savings projections
   - ROI calculation over 12-24 months
   - TCO comparison

   🚀 **IMPLEMENTATION ROADMAP**
   - Phase 1: Quick wins (0-3 months)
   - Phase 2: Core migration (3-6 months)
   - Phase 3: Advanced features (6-12 months)
   - Resource requirements and timeline

   📈 **BUSINESS BENEFITS**
   - Operational efficiency improvements
   - Scalability and performance gains
   - Security and compliance advantages
   - Innovation enablement opportunities

   ✅ **NEXT STEPS**
   - Immediate action items
   - Decision timeline
   - Required stakeholder engagement
   - Technical proof of concept recommendations

**IMPORTANT**: Use the o3-deep-research capabilities to provide thorough analysis with specific, quantified recommendations. Include realistic cost estimates, implementation timelines, and measurable business benefits.

Generate a complete executive-ready proposal that demonstrates clear value proposition for Azure adoption.
            "
/-- The canned proposal text of `MockSOWService` (its f-string, with `now`
standing for the interpolated clock reading). -/
def mockProposalText (filename now : String) : String :=
  "📋 COMPREHENSIVE AZURE UPSELLING PROPOSAL - o3 DEEP RESEARCH ANALYSIS

Document Analyzed: " ++ filename ++ "
Analysis Date: " ++ now ++ "
Model: o3-deep-research
Analysis Depth: Comprehensive Enterprise Assessment

📋 EXECUTIVE SUMMARY

Based on comprehensive analysis using o3-deep-research capabilities, we've identified transformational Azure opportunities with projected annual savings of $420,000 (38% cost reduction) and operational efficiency improvements of 65%.

Strategic Recommendations:
• Complete infrastructure modernization to Azure - $25K/month savings
• AI-powered document processing pipeline - 85% automation increase  
• Enterprise-grade security and compliance - Risk mitigation worth $2M annually
• DevOps transformation - 10x faster delivery cycles

Total Investment: $180,000 | 24-Month ROI: 340% | Payback Period: 8 months

🎯 TOP AZURE SERVICE RECOMMENDATIONS

1. **AZURE APP SERVICE + CONTAINER APPS**
   Business Impact: $300K annual infrastructure savings, 99.99% SLA
   Technical Benefits: Auto-scaling, zero-downtime deployments, integrated CI/CD
   Monthly Cost: $4,200 (vs current $12,500)
   Implementation: 8 weeks
   Risk Level: Low

2. **AZURE COGNITIVE SERVICES + DOCUMENT INTELLIGENCE**
   Business Impact: Process 2,000 documents/day vs current 100/day capacity
   ROI: $180K annually from labor cost savings
   Technical Benefits: 95% accuracy, multi-format support, custom models
   Monthly Cost: $1,800
   Implementation: 6 weeks
   Risk Level: Low

3. **AZURE SYNAPSE ANALYTICS + POWER BI**
   Business Impact: Real-time insights, 75% faster reporting
   ROI: $120K annually from improved decision making
   Technical Benefits: Unified analytics, AI integration, enterprise scale
   Monthly Cost: $3,500
   Implementation: 12 weeks
   Risk Level: Medium

4. **AZURE SECURITY CENTER + SENTINEL**
   Business Impact: Enterprise security posture, compliance automation
   Risk Mitigation: Potential breach cost avoidance ($2M average)
   Technical Benefits: AI-powered threat detection, automated response
   Monthly Cost: $2,200
   Implementation: 6 weeks
   Risk Level: Low

5. **AZURE DEVOPS + GITHUB ENTERPRISE**
   Business Impact: 10x faster deployment cycles (2 weeks → 2 hours)
   Productivity Gain: 40% developer efficiency improvement
   Technical Benefits: End-to-end automation, integrated security scanning
   Monthly Cost: $1,200
   Implementation: 4 weeks
   Risk Level: Low

📊 COMPREHENSIVE FINANCIAL ANALYSIS

Current State Costs (Annual):
- Infrastructure & Hosting: $150,000
- Manual Processing Labor: $240,000  
- Security & Compliance: $80,000
- Development & Operations: $180,000
- TOTAL: $650,000

Proposed Azure Solution (Annual):
- Azure Services: $156,000
- Implementation & Training: $60,000 (one-time)
- Ongoing Support: $14,000
- TOTAL: $230,000 (Year 1: $290,000)

Financial Benefits:
- Year 1 Net Savings: $360,000
- Year 2+ Annual Savings: $420,000
- 24-Month ROI: 340%
- Break-even Point: 8 months

🚀 PHASED IMPLEMENTATION ROADMAP

**PHASE 1: FOUNDATION (Months 1-3)**
- Azure App Service migration
- Basic security implementation
- Cost Optimization: $8K/month immediate savings
- Resources: 2 cloud architects, 3 developers

**PHASE 2: INTELLIGENCE (Months 4-6)**  
- Document Intelligence deployment
- Power BI analytics implementation
- Productivity Gains: 40% process automation
- Resources: 1 AI specialist, 2 analysts

**PHASE 3: OPTIMIZATION (Months 7-12)**
- Advanced security features
- DevOps transformation
- Performance Gains: 65% overall efficiency improvement
- Resources: 1 DevOps engineer, ongoing support

📈 QUANTIFIED BUSINESS BENEFITS

Operational Efficiency:
- Document processing: 85% reduction in manual effort
- Deployment cycles: 95% time reduction
- System uptime: 99.99% SLA vs current 98%
- Security incidents: 90% reduction through AI monitoring

Strategic Advantages:
- Scalability: Handle 500% growth without infrastructure investment
- Innovation: AI/ML capabilities enable new product features
- Compliance: Automated compliance reporting saves 200 hours/month
- Talent: Access to Azure's extensive developer ecosystem

Competitive Position:
- Market responsiveness: 10x faster feature delivery
- Data insights: Real-time analytics vs quarterly reports
- Cost structure: 38% lower operational costs than competitors
- Risk profile: Enterprise-grade security and disaster recovery

✅ IMMEDIATE NEXT STEPS

1. **Executive Decision (Week 1)**
   - Present proposal to C-suite
   - Secure $290K Year 1 budget approval
   - Designate internal Azure champion

2. **Technical Validation (Weeks 2-4)**
   - Azure architecture review workshop
   - Proof-of-concept deployment
   - Performance benchmarking

3. **Implementation Planning (Weeks 5-8)**
   - Detailed migration planning
   - Team training program
   - Vendor partnerships and support agreements

4. **Phase 1 Kickoff (Month 2)**
   - Project team assignment
   - Azure environment provisioning
   - Migration execution begins

🎯 DECISION FRAMEWORK

This proposal provides a comprehensive pathway to Azure transformation with quantified benefits and realistic implementation timelines. The combination of immediate cost savings, operational improvements, and strategic capabilities positions your organization for sustained competitive advantage.

**Recommendation**: Proceed with Executive Decision phase immediately to capitalize on identified opportunities and begin realizing benefits within 60 days.

*This analysis leverages o3-deep-research capabilities for comprehensive assessment of technical and business factors.*
            "

/-- Embedding of `SOWProposalService._process_with_orchestrator`.  Returns the
result dictionary together with the number of remote-runtime calls attempted
(thread create, message create, run create, one run get per poll iteration,
and the message list on completion).  The instruction payload
(`analysisMessage` below) is handed to the external runtime and does not
influence any locally observable value. -/
def processWithOrchestrator (rt : Runtime) (fileText filename : String) :
    SvcResult × Nat :=
  let documentText := extractTextContent fileText filename
  match rt.create with
  | .error e =>
    ({ status := "error", error? := some ("Orchestrator processing failed: " ++ e) }, 1)
  | .ok threadId =>
    let pr := pollLoop rt rt.initialStatus
    let finalStatus := pr.1
    let waitTime := pr.2
    let calls := 3 + waitTime / pollInterval
    if finalStatus == "completed" then
      match findProposalMessage rt.messages with
      | none =>
        ({ status := "error",
           error? := some "No assistant response found in thread",
           debugMessages? := some (debugPreview rt.messages) }, calls + 1)
      | some pm =>
        ({ status := "success",
           proposal? := some pm.text,
           threadId? := some threadId,
           processingTime? := some waitTime,
           filename? := some filename,
           documentLength? := some documentText.length }, calls + 1)
    else
      let errorMsg :=
        "GPT-4o processing failed with status: " ++ finalStatus ++
          (match rt.lastErrorAt waitTime with
           | some e => " - " ++ e
           | none =>
             if maxWaitTime ≤ waitTime then
               " - Processing timeout (5 minutes exceeded)"
             else "")
      ({ status := "error", error? := some errorMsg,
         processingTime? := some waitTime, runStatus? := some finalStatus }, calls)

/-- The live service as called by the façade:
`SOWProposalService.process_sow_document(file_content, filename)` forwards to
`_process_with_orchestrator` (its `except` wrapper only fires on exceptions,
which the embedding represents through `Runtime.create`). -/
def azureProcessSowDocument (rt : Runtime) (f : UploadedFile) : SvcResult × Nat :=
  processWithOrchestrator rt f.text f.filename

/-- Embedding of `MockSOWService.process_sow_document`: a canned success with
the constant thread id `"mock-o3-123"`, making no remote call.  `now` stands
for `datetime.now().strftime("%Y-%m-%d %H:%M")`. -/
def mockProcessSowDocument (now : String) (f : UploadedFile) : SvcResult × Nat :=
  ({ status := "success",
     proposal? := some (mockProposalText f.filename now),
     threadId? := some "mock-o3-123",
     processingTime? := some 8,
     filename? := some f.filename,
     documentLength? := some f.byteLen }, 0)

/-- The upload form's extension allow-list:
`allowed_extensions = {".pdf", ".docx", ".doc", ".txt"}`. -/
def allowedExtensions : List String := [".pdf", ".docx", ".doc", ".txt"]

/-- The `', '.join(allowed_extensions)` part of the rejection message.  Python
iterates the set in an unspecified (hash-seed dependent) order; the spec only
relies on the `"Unsupported file type"` prefix of the message, so one join
order is fixed here. -/
def supportedJoined : String := ".pdf, .docx, .doc, .txt"

/-- A JSON error body `{"status": "error", "error": msg}`. -/
def errorBody (msg : String) : SvcResult :=
  { status := "error", error? := some msg }

/-- A Flask response: the JSON body and the HTTP status code (`jsonify(x)`
alone is code 200). -/
structure AppResult where
  body : SvcResult
  code : Nat
deriving DecidableEq

/-- Everything observable about one `POST /api/sow/process` request: the HTTP
response, the `proposals_storage` dict afterwards, the number of
remote-runtime calls attempted, and whether `file.read()` was executed. -/
structure SowOutcome where
  resp : AppResult
  storage : Storage
  remoteCalls : Nat
  contentRead : Bool
deriving DecidableEq

/-- Embedding of `app.process_sow`, parametrised by the configured service
(`sow_service.process_sow_document`).  `req = none` models a request whose
form has no `file` field.  Validation runs in source order: field presence,
non-empty filename, extension allow-list, then `file.read()` and the
emptiness check; only then is the service invoked.  A success result is cached
under its thread id (`result["proposal"]` is read while building the entry, so
a success lacking it would raise `KeyError`, caught as a 500 `Server error`).
The response body on the service path is `jsonify(result)` with code 200
regardless of `result["status"]`. -/
def processSow (svc : UploadedFile → SvcResult × Nat) (req : Option UploadedFile)
    (storage : Storage) : SowOutcome :=
  match req with
  | none => ⟨⟨errorBody "No file uploaded", 400⟩, storage, 0, false⟩
  | some file =>
    if file.filename == "" then
      ⟨⟨errorBody "No file selected", 400⟩, storage, 0, false⟩
    else
      let fileExtension := splitextExt (pyLower file.filename)
      if !(allowedExtensions.contains fileExtension) then
        ⟨⟨errorBody ("Unsupported file type: " ++ fileExtension ++ ". Supported: "
            ++ supportedJoined), 400⟩, storage, 0, false⟩
      else
        if file.byteLen == 0 then
          ⟨⟨errorBody "File is empty", 400⟩, storage, 0, true⟩
        else
          let r := svc file
          let result := r.1
          let calls := r.2
          if result.status == "success" && result.threadId?.isSome then
            match result.threadId?, result.proposal? with
            | some t, some p =>
              ⟨⟨result, 200⟩, storagePut storage t ⟨p, file.filename⟩, calls, true⟩
            | some _, none =>
              ⟨⟨errorBody "Server error: 'proposal'", 500⟩, storage, calls, true⟩
            | none, _ => ⟨⟨result, 200⟩, storage, calls, true⟩
          else
            ⟨⟨result, 200⟩, storage, calls, true⟩

/-- The attachment filename sanitiser of `download_proposal`:
`"".join(c for c in filename if c.isalnum() or c in (" ", "-", "_")).rstrip()`
(`Char.isAlphanum` models `str.isalnum` on the ASCII range; no claim depends
on the attachment name). -/
def safeFilename (s : String) : String :=
  String.mk ((s.data.filter
    (fun c => c.isAlphanum || c == ' ' || c == '-' || c == '_')).reverse.dropWhile
      isPySpace).reverse

/-- A `GET /api/proposal/<thread_id>/download` response: the attachment body
text (sent as its UTF-8 bytes), the attachment name, and the HTTP code. -/
structure DownloadResp where
  content? : Option String
  downloadName? : Option String
  code : Nat
deriving DecidableEq

/-- Embedding of `app.download_proposal`: a pure read of `proposals_storage`.
The handler never writes the dict, which the state-passing form records by
returning the storage it was given. -/
def downloadProposal (storage : Storage) (threadId : String) :
    DownloadResp × Storage :=
  match storageGet storage threadId with
  | none => (⟨none, none, 404⟩, storage)
  | some entry =>
    (⟨some entry.proposal,
      some ("Azure-Proposal-" ++ safeFilename entry.filename ++ ".txt"), 200⟩, storage)

/-- The `proposals_generated` field of `GET /api/stats`:
`len(proposals_storage)`. -/
def getStats (storage : Storage) : Nat := storage.length

/-- Substring containment, used for the spec's "error message contains ..."
phrasing. -/
def containsStr (hay needle : String) : Prop :=
  ∃ a b, hay = a ++ needle ++ b

/-- A `.txt` upload text of 10001 characters, exhibiting the missing
truncation on the `.txt` extraction path. -/
def bigTxtContent : String := String.mk (List.replicate 10001 'a')

/-- A runtime that completes immediately with two assistant messages in the
log, the later one being the remote agent's final output. -/
def rtDone : Runtime :=
  ⟨.ok "thread-9", "completed", fun _ => "completed", fun _ => none,
   [⟨"user", "please analyze"⟩, ⟨"assistant", "draft answer"⟩,
    ⟨"assistant", "final answer"⟩]⟩

/-- A runtime that completes immediately but whose log holds no
assistant-authored message. -/
def rtNoAssistant : Runtime :=
  ⟨.ok "thread-5", "completed", fun _ => "completed", fun _ => none,
   [⟨"user", "hello there"⟩]⟩

/-- A runtime whose run status never leaves `queued`. -/
def rtTimeout : Runtime :=
  ⟨.ok "thread-77", "queued", fun _ => "queued", fun _ => none, []⟩

/-- A fixed clock reading for instantiating the mock service. -/
def mockNow : String := "2025-10-12 09:00"

/-- A small valid `.txt` upload. -/
def fileAlpha : UploadedFile := ⟨"alpha.txt", 6, "And so"⟩

/-- A second small valid `.txt` upload. -/
def fileBeta : UploadedFile := ⟨"beta.txt", 4, "plan"⟩

/-- An upload with a disallowed `.xls` extension. -/
def fileXls : UploadedFile := ⟨"table.xls", 12, "spreadsheet!"⟩

/-- An empty upload (0 bytes) with an allowed extension. -/
def fileEmptyPdf : UploadedFile := ⟨"report.pdf", 0, ""⟩

/-- An empty upload (0 bytes) with a disallowed extension. -/
def fileEmptyXls : UploadedFile := ⟨"sheet.xls", 0, ""⟩

/-- The fuel of `pollAux` never cuts the loop short: whenever the fuel covers
the remaining budget (as it does at the loop's entry), the loop exits only
because its guard fails, exactly as the source's `while` does. -/
theorem pollAux_guard_false (rt : Runtime) (fuel : Nat) :
    ∀ status waitTime, maxWaitTime ≤ waitTime + pollInterval * fuel →
      ¬(nonTerminalStatus (pollAux rt status waitTime fuel).1 = true ∧
        (pollAux rt status waitTime fuel).2 < maxWaitTime) := by
  induction fuel with
  | zero =>
    intro status waitTime h hc
    simp only [pollAux] at hc
    simp only [maxWaitTime, pollInterval] at h hc
    omega
  | succ n ih =>
    intro status waitTime h
    simp only [pollAux]
    split
    · exact ih _ _ (by simp only [maxWaitTime, pollInterval] at h ⊢; omega)
    · next hg => exact hg

/-- The final `wait_time` never exceeds `max_wait_time` when the budget
covers the fuel, as it does for `pollLoop`. -/
theorem pollAux_le_max (rt : Runtime) (fuel : Nat) :
    ∀ status waitTime, waitTime + pollInterval * fuel ≤ maxWaitTime →
      (pollAux rt status waitTime fuel).2 ≤ maxWaitTime := by
  induction fuel with
  | zero =>
    intro s w h
    simp only [pollAux]
    simp only [maxWaitTime, pollInterval] at h ⊢
    omega
  | succ n ih =>
    intro s w h
    simp only [pollAux]
    split
    · exact ih _ _ (by simp only [maxWaitTime, pollInterval] at h ⊢; omega)
    · simp only [maxWaitTime, pollInterval] at h ⊢; omega

/-- When every observed status is non-terminal, the loop runs the budget down
completely: it exits with `wait_time` exactly `max_wait_time` and a still
non-terminal status. -/
theorem pollAux_all_nonterminal (rt : Runtime)
    (hall : ∀ w, nonTerminalStatus (rt.statusAt w) = true) (fuel : Nat) :
    ∀ status waitTime, nonTerminalStatus status = true →
      waitTime + pollInterval * fuel = maxWaitTime →
      (pollAux rt status waitTime fuel).2 = maxWaitTime ∧
        nonTerminalStatus (pollAux rt status waitTime fuel).1 = true := by
  induction fuel with
  | zero =>
    intro s w hs h
    simp only [pollAux]
    simp only [pollInterval] at h
    exact ⟨by omega, hs⟩
  | succ n ih =>
    intro s w hs h
    simp only [pollAux]
    rw [if_pos ⟨hs, by simp only [maxWaitTime, pollInterval] at h ⊢; omega⟩]
    exact ih _ _ (hall _) (by simp only [maxWaitTime, pollInterval] at h ⊢; omega)

/-- The final `wait_time` of a full poll is at most `max_wait_time`: the
overshoot past the deadline is below one poll interval (here zero, since the
interval divides the budget). -/
theorem pollLoop_wait_le (rt : Runtime) (status : String) :
    (pollLoop rt status).2 ≤ maxWaitTime :=
  pollAux_le_max rt _ status 0 (by simp [maxWaitTime, pollInterval])

/-- A status accepted by the poll guard is not `"completed"`. -/
theorem nonTerminal_ne_completed {s : String} (h : nonTerminalStatus s = true) :
    (s == "completed") = false := by
  have h' : s = "queued" ∨ s = "in_progress" ∨ s = "requires_action" := by
    simpa [nonTerminalStatus, List.contains] using h
  rcases h' with h' | h' | h' <;> subst h' <;> rfl

/-- Scanning a log from most recent to oldest and stopping at the first match
finds exactly the last matching message of the chronological order. -/
theorem find?_reverse_eq_getLast?_filter {α : Type} (p : α → Bool) (l : List α) :
    l.reverse.find? p = (l.filter p).getLast? := by
  induction l with
  | nil => rfl
  | cons a l ih =>
    rw [List.reverse_cons, List.find?_append, ih, List.filter_cons]
    by_cases hp : p a = true
    · rw [if_pos hp]
      cases hfl : l.filter p with
      | nil => simp [hp]
      | cons b t =>
        cases h2 : (b :: t).getLast? with
        | none => exact absurd (List.getLast?_eq_none_iff.1 h2) (by simp)
        | some x => simp [List.getLast?_cons_cons, h2]
    · rw [if_neg hp]
      cases hfl : l.filter p with
      | nil => simp [hp]
      | cons b t =>
        cases h2 : (b :: t).getLast? with
        | none => exact absurd (List.getLast?_eq_none_iff.1 h2) (by simp)
        | some x => simp [h2, hp]

/-- After a replacing update of key `k`, the first entry with key `k` is the
new one. -/
theorem find?_map_put_self (k : String) (v : CacheEntry) :
    ∀ s : Storage, s.any (fun kv => kv.1 == k) = true →
      List.find? (fun kv => kv.1 == k)
        (s.map (fun kv => if kv.1 == k then (k, v) else kv)) = some (k, v)
  | a :: t, hany => by
    by_cases ha : (a.1 == k) = true
    · rw [List.map_cons, if_pos ha, List.find?_cons_of_pos _ (by simp)]
    · rw [List.map_cons, if_neg ha, List.find?_cons_of_neg _ (by simpa using ha)]
      have htail : t.any (fun kv => kv.1 == k) = true := by
        simpa [List.any_cons, ha] using hany
      exact find?_map_put_self k v t htail

/-- A replacing update of key `k` does not disturb the first entry found for
another key. -/
theorem find?_map_put_ne (k k' : String) (v : CacheEntry) (hne : k ≠ k') :
    ∀ s : Storage,
      List.find? (fun kv => kv.1 == k')
        (s.map (fun kv => if kv.1 == k then (k, v) else kv)) =
      List.find? (fun kv => kv.1 == k') s
  | [] => rfl
  | a :: t => by
    by_cases ha : (a.1 == k) = true
    · have ha' : a.1 = k := by simpa using ha
      rw [List.map_cons, if_pos ha,
        List.find?_cons_of_neg _ (by simpa using hne),
        List.find?_cons_of_neg _ (by rw [ha']; simpa using hne)]
      exact find?_map_put_ne k k' v hne t
    · rw [List.map_cons, if_neg ha]
      by_cases hak' : (a.1 == k') = true
      · rw [@List.find?_cons_of_pos _ (fun kv => kv.1 == k') a _ hak',
          @List.find?_cons_of_pos _ (fun kv => kv.1 == k') a t hak']
      · rw [@List.find?_cons_of_neg _ (fun kv => kv.1 == k') a _ hak',
          @List.find?_cons_of_neg _ (fun kv => kv.1 == k') a t hak']
        exact find?_map_put_ne k k' v hne t

/-- Inserting under key `k` makes the lookup of `k` return the new entry. -/
theorem storageGet_put_self (s : Storage) (k : String) (v : CacheEntry) :
    storageGet (storagePut s k v) k = some v := by
  unfold storagePut storageGet
  split
  · next hany => rw [find?_map_put_self k v s hany]; rfl
  · next hany =>
    rw [List.find?_append]
    have hfnone : s.find? (fun kv => kv.1 == k) = none := by
      rw [List.find?_eq_none]
      intro x hx hpx
      exact hany (List.any_eq_true.2 ⟨x, hx, hpx⟩)
    rw [hfnone, List.find?_cons_of_pos _ (by simp)]
    rfl

/-- Inserting under key `k` leaves the lookup of any other key unchanged. -/
theorem storageGet_put_ne (s : Storage) (k : String) (v : CacheEntry)
    (k' : String) (hne : k' ≠ k) :
    storageGet (storagePut s k v) k' = storageGet s k' := by
  have hne' : k ≠ k' := fun h => hne h.symm
  unfold storagePut storageGet
  split
  · rw [find?_map_put_ne k k' v hne' s]
  · rw [List.find?_append,
      List.find?_cons_of_neg _ (by simpa using hne'), List.find?_nil,
      Option.or_none]

/-- The size of the dict after an insert: unchanged when the key was present,
one more when it was fresh. -/
theorem storageLen_put (s : Storage) (k : String) (v : CacheEntry) :
    (storagePut s k v).length =
      if s.any (fun kv => kv.1 == k) then s.length else s.length + 1 := by
  unfold storagePut
  split <;> simp_all

/-- C2, counterexample: the claim "the plain text extracted locally is
truncated to at most 10,000 characters, regardless of the file's extension or
size" fails on a `.txt` file: the `.txt` branch of `_extract_text_content`
returns the decoded text before the `[:10000]` slice is reached, so a 10001
character `.txt` upload keeps all 10001 characters. -/
theorem extract_cap_fails_for_txt :
    10000 < (extractTextContent bigTxtContent "large.txt").length := by
  have h : extractTextContent bigTxtContent "large.txt" = bigTxtContent := rfl
  have h2 : (extractTextContent bigTxtContent "large.txt").length = 10001 := by
    rw [h]
    show (List.replicate 10001 'a').length = 10001
    rw [List.length_replicate]
  omega

/-- C2, amended: the 10,000-character cap applies to every upload whose
lowercased filename does not end in `.txt`; a `.txt` upload's decoded text is
embedded in full, without truncation. -/
theorem extract_cap_amended (text filename : String) :
    (pyEndsWith (pyLower filename) ".txt" = false →
      (extractTextContent text filename).length ≤ 10000) ∧
    (pyEndsWith (pyLower filename) ".txt" = true →
      extractTextContent text filename = text) := by
  constructor
  · intro h
    unfold extractTextContent
    rw [if_neg (by simp [h])]
    show ((if pyEndsWith (pyLower filename) ".doc" || pyEndsWith (pyLower filename) ".docx" then
        wordCleanup text else text).data.take 10000).length ≤ 10000
    simp [List.length_take]
  · intro h
    unfold extractTextContent
    rw [if_pos (by simp [h])]

/-- C2, witness for the amended theorem: a `.pdf` upload is capped, a `.txt`
upload is passed through. -/
theorem extract_cap_amended_witness :
    (extractTextContent "hello" "a.pdf").length ≤ 10000 ∧
    extractTextContent "hello" "b.txt" = "hello" :=
  ⟨(extract_cap_amended "hello" "a.pdf").1 (by decide),
   (extract_cap_amended "hello" "b.txt").2 (by decide)⟩

/-- C3: the Job Poller advances `wait_time` in fixed `pollInterval` steps and
continues only while the status is non-terminal and `wait_time` is below
`maxWaitTime`, so every poll ends with `wait_time` at most `maxWaitTime`
(overshoot bounded by one interval, here zero since the interval divides the
budget); when the status never becomes terminal the loop stops exactly at
`maxWaitTime` and the service reports an error whose `processing_time` is
`maxWaitTime` and whose message carries the processing-timeout diagnosis. -/
theorem poller_fixed_interval_timeout (rt : Runtime) (tid fileText filename : String)
    (hcreate : rt.create = .ok tid)
    (hall : ∀ w, nonTerminalStatus (rt.statusAt w) = true)
    (h0 : nonTerminalStatus rt.initialStatus = true)
    (hle : rt.lastErrorAt maxWaitTime = none) :
    (∀ status, (pollLoop rt status).2 ≤ maxWaitTime) ∧
    (pollLoop rt rt.initialStatus).2 = maxWaitTime ∧
    (processWithOrchestrator rt fileText filename).1.status = "error" ∧
    (processWithOrchestrator rt fileText filename).1.processingTime? = some maxWaitTime ∧
    (processWithOrchestrator rt fileText filename).1.error? =
      some ("GPT-4o processing failed with status: " ++ (pollLoop rt rt.initialStatus).1
        ++ " - Processing timeout (5 minutes exceeded)") := by
  have hloop := pollAux_all_nonterminal rt hall (maxWaitTime / pollInterval)
    rt.initialStatus 0 h0 (by simp [maxWaitTime, pollInterval])
  have hw : (pollLoop rt rt.initialStatus).2 = maxWaitTime := hloop.1
  have hncomp : ((pollLoop rt rt.initialStatus).1 == "completed") = false :=
    nonTerminal_ne_completed hloop.2
  refine ⟨fun status => pollLoop_wait_le rt status, hw, ?_⟩
  simp only [processWithOrchestrator, hcreate]
  rw [if_neg (by simp [hncomp])]
  rw [hw, hle]
  refine ⟨rfl, rfl, ?_⟩
  rw [if_pos (le_refl maxWaitTime)]

/-- C3, witness: a runtime stuck in `queued` exhausts the budget exactly and
surfaces an error. -/
theorem poller_fixed_interval_timeout_witness :
    (pollLoop rtTimeout rtTimeout.initialStatus).2 = maxWaitTime ∧
    (processWithOrchestrator rtTimeout "content" "doc.pdf").1.status = "error" ∧
    (processWithOrchestrator rtTimeout "content" "doc.pdf").1.processingTime? =
      some maxWaitTime := by
  have h := poller_fixed_interval_timeout rtTimeout "thread-77" "content" "doc.pdf"
    rfl (fun w => rfl) rfl rfl
  exact ⟨h.2.1, h.2.2.1, h.2.2.2.1⟩

/-- C6: retrieval from the cache is read-only and idempotent: for any job id
present in the cache the download handler returns HTTP 200 with exactly the
stored proposal text (sent as its UTF-8 bytes, so equal texts are
byte-identical responses), leaves the cache unchanged, and a second call
returns the identical response. -/
theorem download_idempotent_read_only (storage : Storage) (tid : String)
    (entry : CacheEntry) (hget : storageGet storage tid = some entry) :
    (downloadProposal storage tid).1.content? = some entry.proposal ∧
    (downloadProposal storage tid).1.code = 200 ∧
    (downloadProposal storage tid).2 = storage ∧
    downloadProposal (downloadProposal storage tid).2 tid =
      downloadProposal storage tid := by
  have h1 : downloadProposal storage tid =
      (⟨some entry.proposal,
        some ("Azure-Proposal-" ++ safeFilename entry.filename ++ ".txt"), 200⟩,
       storage) := by
    unfold downloadProposal
    rw [hget]
  refine ⟨by rw [h1], by rw [h1], by rw [h1], ?_⟩
  rw [h1]
  exact h1

/-- C6, witness: downloading a cached proposal twice. -/
theorem download_idempotent_read_only_witness :
    (downloadProposal [("job-1", ⟨"PROPOSAL TEXT", "sow.txt"⟩)] "job-1").1.content? =
      some "PROPOSAL TEXT" ∧
    downloadProposal (downloadProposal [("job-1", ⟨"PROPOSAL TEXT", "sow.txt"⟩)] "job-1").2
        "job-1" =
      downloadProposal [("job-1", ⟨"PROPOSAL TEXT", "sow.txt"⟩)] "job-1" := by
  have h := download_idempotent_read_only [("job-1", ⟨"PROPOSAL TEXT", "sow.txt"⟩)]
    "job-1" ⟨"PROPOSAL TEXT", "sow.txt"⟩ rfl
  exact ⟨h.1, h.2.2.2⟩

/-- C1: for a job that completes with at least one assistant-authored message
in its log, the extractor scans `reversed(list(messages))` and stops at the
first message whose role is `"assistant"` — which is the chronologically most
recent assistant message — and the returned proposal text is exactly that
message's `content[0].text.value`; the service result is a success carrying
it. -/
theorem extractor_most_recent_assistant (rt : Runtime) (tid fileText filename : String)
    (hcreate : rt.create = .ok tid)
    (hdone : (pollLoop rt rt.initialStatus).1 = "completed")
    (hex : rt.messages.filter (fun m => m.role == "assistant") ≠ []) :
    (processWithOrchestrator rt fileText filename).1.status = "success" ∧
    (processWithOrchestrator rt fileText filename).1.proposal? =
      ((rt.messages.filter (fun m => m.role == "assistant")).getLast?).map Message.text := by
  obtain ⟨pm, hpm⟩ : ∃ pm,
      (rt.messages.filter (fun m => m.role == "assistant")).getLast? = some pm := by
    cases h : (rt.messages.filter (fun m => m.role == "assistant")).getLast? with
    | none => exact absurd (List.getLast?_eq_none_iff.1 h) hex
    | some pm => exact ⟨pm, rfl⟩
  have hfind : findProposalMessage rt.messages = some pm := by
    rw [findProposalMessage, find?_reverse_eq_getLast?_filter]
    exact hpm
  simp only [processWithOrchestrator, hcreate]
  rw [if_pos (by simp [hdone])]
  rw [hfind, hpm]
  exact ⟨rfl, rfl⟩

/-- C1, witness: a completed run whose log ends with two assistant messages
yields the later one. -/
theorem extractor_most_recent_assistant_witness :
    (processWithOrchestrator rtDone "text" "sow.txt").1.status = "success" ∧
    (processWithOrchestrator rtDone "text" "sow.txt").1.proposal? = some "final answer" := by
  have h := extractor_most_recent_assistant rtDone "thread-9" "text" "sow.txt"
    rfl rfl (by decide)
  refine ⟨h.1, ?_⟩
  rw [h.2]
  rfl

/-- C7: for a job that completes with no assistant-authored message in its
log, extraction produces an error result (not a success, and with no
proposal), whose payload includes the `debug_messages` preview — each log
message's role with the first 100 characters of its text — for diagnosis. -/
theorem no_assistant_message_diagnostic (rt : Runtime) (tid fileText filename : String)
    (hcreate : rt.create = .ok tid)
    (hdone : (pollLoop rt rt.initialStatus).1 = "completed")
    (hno : rt.messages.filter (fun m => m.role == "assistant") = []) :
    (processWithOrchestrator rt fileText filename).1.status = "error" ∧
    (processWithOrchestrator rt fileText filename).1.error? =
      some "No assistant response found in thread" ∧
    (processWithOrchestrator rt fileText filename).1.debugMessages? =
      some (rt.messages.map
        (fun m => m.role ++ ": " ++ String.mk (m.text.data.take 100) ++ "...")) ∧
    (processWithOrchestrator rt fileText filename).1.proposal? = none := by
  have hfind : findProposalMessage rt.messages = none := by
    rw [findProposalMessage, find?_reverse_eq_getLast?_filter, hno]
    rfl
  simp only [processWithOrchestrator, hcreate]
  rw [if_pos (by simp [hdone])]
  rw [hfind]
  exact ⟨rfl, rfl, rfl, rfl⟩

/-- C7, witness: a completed run whose log has only a user message. -/
theorem no_assistant_message_diagnostic_witness :
    (processWithOrchestrator rtNoAssistant "text" "sow.txt").1.status = "error" ∧
    (processWithOrchestrator rtNoAssistant "text" "sow.txt").1.debugMessages? =
      some ["user: hello there..."] := by
  have h := no_assistant_message_diagnostic rtNoAssistant "thread-5" "text" "sow.txt"
    rfl rfl (by decide)
  refine ⟨h.1, ?_⟩
  rw [h.2.2.1]
  rfl

/-- C5: an upload whose filename has a missing or disallowed extension is
answered with HTTP 400 and a `status:"error"` body whose message contains
"Unsupported file type", the cache is untouched, and no remote-runtime call is
made. -/
theorem unsupported_extension_rejected (svc : UploadedFile → SvcResult × Nat)
    (f : UploadedFile) (storage : Storage)
    (hname : f.filename ≠ "")
    (hext : allowedExtensions.contains (splitextExt (pyLower f.filename)) = false) :
    (processSow svc (some f) storage).resp.code = 400 ∧
    (processSow svc (some f) storage).resp.body.status = "error" ∧
    (∃ msg, (processSow svc (some f) storage).resp.body.error? = some msg ∧
      containsStr msg "Unsupported file type") ∧
    (processSow svc (some f) storage).remoteCalls = 0 ∧
    (processSow svc (some f) storage).storage = storage := by
  have hbeq : (f.filename == "") = false := beq_eq_false_iff_ne.2 hname
  have hred : processSow svc (some f) storage =
      ⟨⟨errorBody ("Unsupported file type: " ++ splitextExt (pyLower f.filename)
          ++ ". Supported: " ++ supportedJoined), 400⟩, storage, 0, false⟩ := by
    simp only [processSow]
    rw [if_neg (by simp [hbeq]), if_pos (by simpa using hext)]
  rw [hred]
  refine ⟨rfl, rfl, ⟨_, rfl, ?_⟩, rfl, rfl⟩
  refine ⟨"", ": " ++ splitextExt (pyLower f.filename) ++ ". Supported: "
    ++ supportedJoined, ?_⟩
  have hsplit : ("Unsupported file type: " : String) = "Unsupported file type" ++ ": " := rfl
  rw [hsplit]
  simp only [String.append_assoc, String.empty_append]

/-- C5, witness: a `.xls` upload against the live service is rejected without
any remote call. -/
theorem unsupported_extension_rejected_witness :
    (processSow (azureProcessSowDocument rtDone) (some fileXls) []).resp.code = 400 ∧
    (processSow (azureProcessSowDocument rtDone) (some fileXls) []).remoteCalls = 0 := by
  have h := unsupported_extension_rejected (azureProcessSowDocument rtDone) fileXls []
    (by decide) (by decide)
  exact ⟨h.1, h.2.2.2.1⟩

/-- C8: an upload with an allowed extension but empty content (0 bytes) is
answered with HTTP 400 and a `status:"error"` body whose message contains
"empty", and no remote-runtime call is made. -/
theorem empty_file_rejected (svc : UploadedFile → SvcResult × Nat)
    (f : UploadedFile) (storage : Storage)
    (hname : f.filename ≠ "")
    (hext : allowedExtensions.contains (splitextExt (pyLower f.filename)) = true)
    (hempty : f.byteLen = 0) :
    (processSow svc (some f) storage).resp.code = 400 ∧
    (processSow svc (some f) storage).resp.body.status = "error" ∧
    (∃ msg, (processSow svc (some f) storage).resp.body.error? = some msg ∧
      containsStr msg "empty") ∧
    (processSow svc (some f) storage).remoteCalls = 0 ∧
    (processSow svc (some f) storage).storage = storage := by
  have hbeq : (f.filename == "") = false := beq_eq_false_iff_ne.2 hname
  have hred : processSow svc (some f) storage =
      ⟨⟨errorBody "File is empty", 400⟩, storage, 0, true⟩ := by
    simp only [processSow]
    rw [if_neg (by simp [hbeq]), if_neg (by simpa using hext), if_pos (by simp [hempty])]
  rw [hred]
  exact ⟨rfl, rfl, ⟨"File is empty", rfl, "File is ", "", rfl⟩, rfl, rfl⟩

/-- C8, witness: an empty `.pdf` upload against the live service is rejected
without any remote call. -/
theorem empty_file_rejected_witness :
    (processSow (azureProcessSowDocument rtDone) (some fileEmptyPdf) []).resp.code = 400 ∧
    (processSow (azureProcessSowDocument rtDone) (some fileEmptyPdf) []).resp.body.error? =
      some "File is empty" ∧
    (processSow (azureProcessSowDocument rtDone) (some fileEmptyPdf) []).remoteCalls = 0 := by
  have h := empty_file_rejected (azureProcessSowDocument rtDone) fileEmptyPdf []
    (by decide) (by decide) rfl
  exact ⟨h.1, rfl, h.2.2.2.1⟩

/-- C10: the validation checks run in a fixed order — file-field presence,
then non-empty filename, then the extension allow-list, and only then is the
content read and checked for emptiness.  In particular an empty (0-byte) file
with a disallowed extension is rejected as "Unsupported file type" rather than
"File is empty", with the content never read (`contentRead = false`), and no
remote call is made on any of these paths. -/
theorem validation_order_short_circuit (svc : UploadedFile → SvcResult × Nat)
    (f : UploadedFile) (storage : Storage) :
    processSow svc none storage =
      ⟨⟨errorBody "No file uploaded", 400⟩, storage, 0, false⟩ ∧
    (f.filename = "" →
      processSow svc (some f) storage =
        ⟨⟨errorBody "No file selected", 400⟩, storage, 0, false⟩) ∧
    (f.filename ≠ "" →
      allowedExtensions.contains (splitextExt (pyLower f.filename)) = false →
      processSow svc (some f) storage =
        ⟨⟨errorBody ("Unsupported file type: " ++ splitextExt (pyLower f.filename)
            ++ ". Supported: " ++ supportedJoined), 400⟩, storage, 0, false⟩) ∧
    (f.filename ≠ "" →
      allowedExtensions.contains (splitextExt (pyLower f.filename)) = true →
      f.byteLen = 0 →
      processSow svc (some f) storage =
        ⟨⟨errorBody "File is empty", 400⟩, storage, 0, true⟩) := by
  refine ⟨rfl, ?_, ?_, ?_⟩
  · intro h
    simp only [processSow]
    rw [if_pos (by simp [h])]
  · intro h hext
    have hbeq : (f.filename == "") = false := beq_eq_false_iff_ne.2 h
    simp only [processSow]
    rw [if_neg (by simp [hbeq]), if_pos (by simpa using hext)]
  · intro h hext hempty
    have hbeq : (f.filename == "") = false := beq_eq_false_iff_ne.2 h
    simp only [processSow]
    rw [if_neg (by simp [hbeq]), if_neg (by simpa using hext), if_pos (by simp [hempty])]

/-- C10, witness: an empty upload with a `.xls` extension takes the
"Unsupported file type" branch with the content never read. -/
theorem validation_order_short_circuit_witness :
    processSow (azureProcessSowDocument rtDone) (some fileEmptyXls) [] =
      ⟨⟨errorBody ("Unsupported file type: " ++ splitextExt (pyLower fileEmptyXls.filename)
          ++ ". Supported: " ++ supportedJoined), 400⟩, [], 0, false⟩ ∧
    (processSow (azureProcessSowDocument rtDone) (some fileEmptyXls) []).contentRead = false := by
  have h := validation_order_short_circuit (azureProcessSowDocument rtDone) fileEmptyXls []
  have h3 := h.2.2.1 (by decide) (by decide)
  exact ⟨h3, by rw [h3]⟩

/-- Every success result of the live service carries a thread id and a
proposal: the success return site of `_process_with_orchestrator` writes both
fields.  This discharges, for the live service, the well-formedness hypothesis
taken by the cache-behaviour theorems below (the mock service discharges it by
computation). -/
theorem azure_success_has_artifact (rt : Runtime) (g : UploadedFile)
    (h : (azureProcessSowDocument rt g).1.status = "success") :
    (∃ t, (azureProcessSowDocument rt g).1.threadId? = some t) ∧
    ∃ p, (azureProcessSowDocument rt g).1.proposal? = some p := by
  cases hc : rt.create with
  | error e =>
    simp only [azureProcessSowDocument, processWithOrchestrator, hc] at h
    exact absurd (show ("error" : String) = "success" from h) (by decide)
  | ok tid =>
    simp only [azureProcessSowDocument, processWithOrchestrator, hc] at h ⊢
    by_cases hdone : ((pollLoop rt rt.initialStatus).1 == "completed") = true
    · rw [if_pos hdone] at h ⊢
      cases hf : findProposalMessage rt.messages with
      | none =>
        rw [hf] at h
        exact absurd (show ("error" : String) = "success" from h) (by decide)
      | some pm =>
        exact ⟨⟨tid, rfl⟩, ⟨pm.text, rfl⟩⟩
    · rw [if_neg hdone] at h
      exact absurd (show ("error" : String) = "success" from h) (by decide)

/-- C4: after a request, a cache entry exists for the job's thread id exactly
when processing reached a successful completion carrying a complete artifact:
a success response caches its proposal under its thread id and changes no
other key, while any non-success outcome (validation failure, submission
failure, timeout, remote failure, or missing response) leaves the cache
exactly as it was.  `hwf` records that every success result of the service
carries a thread id and a proposal, which holds for both the live and the
mock service. -/
theorem cache_entry_iff_success (svc : UploadedFile → SvcResult × Nat)
    (hwf : ∀ g, (svc g).1.status = "success" →
      (∃ t, (svc g).1.threadId? = some t) ∧ ∃ p, (svc g).1.proposal? = some p)
    (req : Option UploadedFile) (storage : Storage) :
    ((processSow svc req storage).resp.body.status ≠ "success" →
      (processSow svc req storage).storage = storage) ∧
    ((processSow svc req storage).resp.body.status = "success" →
      ∃ g t p, req = some g ∧
        (processSow svc req storage).resp.body.threadId? = some t ∧
        (processSow svc req storage).resp.body.proposal? = some p ∧
        storageGet (processSow svc req storage).storage t = some ⟨p, g.filename⟩ ∧
        ∀ k, k ≠ t →
          storageGet (processSow svc req storage).storage k = storageGet storage k) := by
  cases req with
  | none => exact ⟨fun _ => rfl, fun h => absurd (show ("error" : String) = "success" from h) (by decide)⟩
  | some f =>
    by_cases h1 : f.filename = ""
    · simp only [processSow]
      rw [if_pos (by simp [h1])]
      exact ⟨fun _ => rfl, fun h => absurd (show ("error" : String) = "success" from h) (by decide)⟩
    · have hbeq : (f.filename == "") = false := beq_eq_false_iff_ne.2 h1
      by_cases h2 : allowedExtensions.contains (splitextExt (pyLower f.filename)) = true
      · by_cases h3 : f.byteLen = 0
        · simp only [processSow]
          rw [if_neg (by simp [hbeq]), if_neg (by simpa using h2), if_pos (by simp [h3])]
          exact ⟨fun _ => rfl, fun h => absurd (show ("error" : String) = "success" from h) (by decide)⟩
        · have hblen : (f.byteLen == 0) = false := by simpa using h3
          simp only [processSow]
          rw [if_neg (by simp [hbeq]), if_neg (by simpa using h2), if_neg (by simp [hblen])]
          by_cases hst : (svc f).1.status = "success"
          · obtain ⟨⟨t, ht⟩, ⟨p, hp⟩⟩ := hwf f hst
            have hcond : ((svc f).1.status == "success" && (svc f).1.threadId?.isSome)
                = true := by
              rw [hst, ht]; rfl
            rw [if_pos hcond, ht, hp]
            constructor
            · intro hne; exact absurd hst hne
            · intro _
              refine ⟨f, t, p, rfl, ht, hp, ?_, ?_⟩
              · exact storageGet_put_self storage t ⟨p, f.filename⟩
              · intro k hk; exact storageGet_put_ne storage t ⟨p, f.filename⟩ k hk
          · have hstb : ((svc f).1.status == "success") = false :=
              beq_eq_false_iff_ne.2 hst
            have hcond : ((svc f).1.status == "success" && (svc f).1.threadId?.isSome)
                = false := by
              rw [hstb]; rfl
            rw [if_neg (by simp [hcond])]
            exact ⟨fun _ => rfl, fun h => absurd h hst⟩
      · have h2' : allowedExtensions.contains (splitextExt (pyLower f.filename)) = false := by
          revert h2; cases allowedExtensions.contains (splitextExt (pyLower f.filename)) <;> simp
        simp only [processSow]
        rw [if_neg (by simp [hbeq]), if_pos (by simpa using h2')]
        exact ⟨fun _ => rfl, fun h => absurd (show ("error" : String) = "success" from h) (by decide)⟩

/-- C4, witness: a successful mock completion caches its artifact under its
thread id; the instantiated conclusion of the theorem. -/
theorem cache_entry_iff_success_witness :
    ((processSow (mockProcessSowDocument mockNow) (some fileAlpha) []).resp.body.status
        ≠ "success" →
      (processSow (mockProcessSowDocument mockNow) (some fileAlpha) []).storage = []) ∧
    ((processSow (mockProcessSowDocument mockNow) (some fileAlpha) []).resp.body.status
        = "success" →
      ∃ g t p, (some fileAlpha : Option UploadedFile) = some g ∧
        (processSow (mockProcessSowDocument mockNow) (some fileAlpha) []).resp.body.threadId?
          = some t ∧
        (processSow (mockProcessSowDocument mockNow) (some fileAlpha) []).resp.body.proposal?
          = some p ∧
        storageGet (processSow (mockProcessSowDocument mockNow) (some fileAlpha) []).storage t
          = some ⟨p, g.filename⟩ ∧
        ∀ k, k ≠ t →
          storageGet (processSow (mockProcessSowDocument mockNow) (some fileAlpha) []).storage k
            = storageGet [] k) :=
  cache_entry_iff_success (mockProcessSowDocument mockNow)
    (fun g _ => ⟨⟨"mock-o3-123", rfl⟩, ⟨mockProposalText g.filename mockNow, rfl⟩⟩)
    (some fileAlpha) []

/-- C9, counterexample: the claim "after N successful completions,
proposals_generated equals N" fails on the code as shipped: the mock service
(used whenever the Azure configuration is absent) returns the constant thread
id `mock-o3-123`, so the second successful completion overwrites the first
cache entry and `GET /api/stats` reports 1, not 2. -/
theorem stats_miscounts_completions :
    (processSow (mockProcessSowDocument mockNow) (some fileAlpha) []).resp.body.status
      = "success" ∧
    (processSow (mockProcessSowDocument mockNow) (some fileBeta)
        (processSow (mockProcessSowDocument mockNow) (some fileAlpha) []).storage).resp.body.status
      = "success" ∧
    getStats (processSow (mockProcessSowDocument mockNow) (some fileBeta)
        (processSow (mockProcessSowDocument mockNow) (some fileAlpha) []).storage).storage
      = 1 :=
  ⟨rfl, rfl, rfl⟩

/-- C9, amended: `proposals_generated` counts the cache entries, which are
keyed by thread id: a successful completion increments the count only when its
thread id is not already a key (a repeated id — the mock service's constant
`mock-o3-123` in particular — overwrites instead), and any non-success outcome
leaves the count unchanged. -/
theorem stats_counts_distinct_thread_ids (svc : UploadedFile → SvcResult × Nat)
    (hwf : ∀ g, (svc g).1.status = "success" →
      (∃ t, (svc g).1.threadId? = some t) ∧ ∃ p, (svc g).1.proposal? = some p)
    (req : Option UploadedFile) (storage : Storage) :
    ((processSow svc req storage).resp.body.status = "success" →
      ∃ t, (processSow svc req storage).resp.body.threadId? = some t ∧
        getStats (processSow svc req storage).storage =
          (if storage.any (fun kv => kv.1 == t) then getStats storage
           else getStats storage + 1)) ∧
    ((processSow svc req storage).resp.body.status ≠ "success" →
      getStats (processSow svc req storage).storage = getStats storage) := by
  cases req with
  | none => exact ⟨fun h => absurd (show ("error" : String) = "success" from h) (by decide), fun _ => rfl⟩
  | some f =>
    by_cases h1 : f.filename = ""
    · simp only [processSow]
      rw [if_pos (by simp [h1])]
      exact ⟨fun h => absurd (show ("error" : String) = "success" from h) (by decide), fun _ => rfl⟩
    · have hbeq : (f.filename == "") = false := beq_eq_false_iff_ne.2 h1
      by_cases h2 : allowedExtensions.contains (splitextExt (pyLower f.filename)) = true
      · by_cases h3 : f.byteLen = 0
        · simp only [processSow]
          rw [if_neg (by simp [hbeq]), if_neg (by simpa using h2), if_pos (by simp [h3])]
          exact ⟨fun h => absurd (show ("error" : String) = "success" from h) (by decide), fun _ => rfl⟩
        · have hblen : (f.byteLen == 0) = false := by simpa using h3
          simp only [processSow]
          rw [if_neg (by simp [hbeq]), if_neg (by simpa using h2), if_neg (by simp [hblen])]
          by_cases hst : (svc f).1.status = "success"
          · obtain ⟨⟨t, ht⟩, ⟨p, hp⟩⟩ := hwf f hst
            have hcond : ((svc f).1.status == "success" && (svc f).1.threadId?.isSome)
                = true := by
              rw [hst, ht]; rfl
            rw [if_pos hcond, ht, hp]
            constructor
            · intro _
              exact ⟨t, ht, storageLen_put storage t ⟨p, f.filename⟩⟩
            · intro hne; exact absurd hst hne
          · have hstb : ((svc f).1.status == "success") = false :=
              beq_eq_false_iff_ne.2 hst
            have hcond : ((svc f).1.status == "success" && (svc f).1.threadId?.isSome)
                = false := by
              rw [hstb]; rfl
            rw [if_neg (by simp [hcond])]
            exact ⟨fun h => absurd h hst, fun _ => rfl⟩
      · have h2' : allowedExtensions.contains (splitextExt (pyLower f.filename)) = false := by
          revert h2; cases allowedExtensions.contains (splitextExt (pyLower f.filename)) <;> simp
        simp only [processSow]
        rw [if_neg (by simp [hbeq]), if_pos (by simpa using h2')]
        exact ⟨fun h => absurd (show ("error" : String) = "success" from h) (by decide), fun _ => rfl⟩

/-- C9, witness for the amended theorem: one successful mock completion into
an empty cache yields a count of 1. -/
theorem stats_counts_distinct_thread_ids_witness :
    getStats (processSow (mockProcessSowDocument mockNow) (some fileAlpha) []).storage = 1 := by
  have h := stats_counts_distinct_thread_ids (mockProcessSowDocument mockNow)
    (fun g _ => ⟨⟨"mock-o3-123", rfl⟩, ⟨mockProposalText g.filename mockNow, rfl⟩⟩)
    (some fileAlpha) []
  obtain ⟨t, ht, hlen⟩ := h.1 rfl
  have ht2 : t = "mock-o3-123" := by
    have : some t = some "mock-o3-123" := ht.symm.trans rfl
    exact Option.some.inj this
  subst ht2
  rw [hlen]
  rfl

end NSPAgent
